import Mathlib

/-!
Verification development for the botworld asset-generation scripts
(scripts/generate-world-assets.py, scripts/generate-new-tiles.py and
scripts/generate-assets.py), shallowly embedded in Lean.

The embedding models:
- the post-processing step (resize + two-threshold alpha correction),
  including an exact model of the IEEE-754 double computation
  (alpha * 0.3).astype(uint8) performed by numpy;
- prompt synthesis (make_spec / build_prompt);
- the generation loop with retries (generate_image), driven by an
  oracle describing the behaviour of the external service at each
  attempt;
- the orchestrator (main), as a pure function from options, credential
  presence, a file-existence predicate and the service oracle to an
  exit code, a list of per-record outcomes and a trace of effects
  (network calls, file writes, post-processing, sleeps).
-/

namespace Botworld

/-! ### Pixels and images -/

/-- One RGBA pixel; channel values are bytes (0..255) stored as naturals. -/
structure RGBA where
  r : Nat
  g : Nat
  b : Nat
  a : Nat
deriving DecidableEq, Repr

/-- Numerator of the IEEE-754 double nearest to 0.3, i.e. that double is
mant03 / 2^54. -/
def mant03 : Nat := 5404319552844595

/-- The constant 2^54, the denominator that goes with mant03. -/
def pow54 : Nat := 18014398509481984

/-- Fuel-driven helper computing the binary bit length of its second
argument; the fuel (first argument) only has to dominate the recursion
depth. -/
def bitlenGo : Nat → Nat → Nat
  | 0, _ => 0
  | _ + 1, 0 => 0
  | fuel + 1, m + 1 => bitlenGo fuel ((m + 1) / 2) + 1

/-- Binary bit length of a natural number (0 for 0). -/
def bitlen (n : Nat) : Nat := bitlenGo n n

/-- Round a positive integer to 53 significant bits, ties to even: the
rounding a binary64 multiplication applies to the exact product of its
operands. -/
def round53 (P : Nat) : Nat :=
  let L := bitlen P
  if L ≤ 53 then P
  else
    let k := L - 53
    let q := P / 2 ^ k
    let r := P % 2 ^ k
    let half := 2 ^ (k - 1)
    if half < r ∨ (r = half ∧ q % 2 = 1) then (q + 1) * 2 ^ k else q * 2 ^ k

/-- Exact model of numpy evaluating (a * 0.3).astype(np.uint8) for a byte a:
the exact product a * (mant03/2^54) is rounded to the nearest double
(53 significant bits, ties to even) and then truncated toward zero. -/
def truncMul03 (a : Nat) : Nat :=
  let P := a * mant03
  if P = 0 then 0 else round53 P / pow54

/-- Alpha correction of scripts/generate-world-assets.py post_process:
white pixels (all channels above 240) get alpha 0; near-white pixels
(all channels above 220, not white) get alpha scaled by 0.3 and truncated;
all other pixels are unchanged.  The two numpy masks are disjoint, so the
two in-place mask assignments are equivalent to this conditional. -/
def alphaCorrectWorld (p : RGBA) : RGBA :=
  if 240 < p.r ∧ 240 < p.g ∧ 240 < p.b then { p with a := 0 }
  else if 220 < p.r ∧ 220 < p.g ∧ 220 < p.b then { p with a := truncMul03 p.a }
  else p

/-- Alpha correction of scripts/generate-new-tiles.py post_process:
white pixels (all channels above 230) get alpha 0; near-white pixels
(all channels above 200, not white) get alpha set to the fixed value 100;
all other pixels are unchanged. -/
def alphaCorrectTiles (p : RGBA) : RGBA :=
  if 230 < p.r ∧ 230 < p.g ∧ 230 < p.b then { p with a := 0 }
  else if 200 < p.r ∧ 200 < p.g ∧ 200 < p.b then { p with a := 100 }
  else p

/-- An RGBA image: dimensions plus pixel contents. -/
structure Img where
  width : Nat
  height : Nat
  pix : Nat → Nat → RGBA

/-- A resampling kernel: how PIL Image.resize computes the pixels of the
resized image from the source image and the target dimensions.  The scripts
use Image.Resampling.LANCZOS; its pixel contents are irrelevant to the
claims, so the kernel is a parameter of the model. -/
def Kernel : Type := Img → Nat → Nat → Nat → Nat → RGBA

/-- Model of img.resize((w, h), LANCZOS): an image of exactly the requested
dimensions whose pixels are produced by the resampling kernel. -/
def resize (ker : Kernel) (img : Img) (w h : Nat) : Img :=
  { width := w, height := h, pix := ker img w h }

/-- Conditional resize of generate-world-assets.py post_process:
resize only when the current size differs from the target. -/
def resizeStep (ker : Kernel) (img : Img) (tw th : Nat) : Img :=
  if (img.width, img.height) ≠ (tw, th) then resize ker img tw th else img

/-- Model of generate-world-assets.py post_process on a decoded RGBA image:
conditional resize to the target dimensions, then per-pixel alpha
correction.  The saved file holds the returned image. -/
def postProcess (ker : Kernel) (img : Img) (tw th : Nat) : Img :=
  let im := resizeStep ker img tw th
  { im with pix := fun x y => alphaCorrectWorld (im.pix x y) }

/-- Model of generate-new-tiles.py post_process: unconditional resize to
128 x 128, then per-pixel alpha correction with the fixed-alpha rule. -/
def postProcessTiles (ker : Kernel) (img : Img) : Img :=
  let im := resize ker img 128 128
  { im with pix := fun x y => alphaCorrectTiles (im.pix x y) }

/-! ### Asset specs and prompt synthesis -/

/-- The fields of a Nano Banana Pro spec dict that make_spec fills in and
build_prompt reads back: meta.title, style.description, subject.variant,
style.art_direction, style.extra and subject.physical_properties
width_px / height_px.  The rest of the nested dict is constant packaging
never read by the pipeline. -/
structure AssetSpec where
  title : String
  description : String
  variant : String
  art_direction : String
  extra : String
  width_px : Nat
  height_px : Nat
deriving DecidableEq, Repr

/-- The shared art-direction string STYLE_PREFIX of
generate-world-assets.py. -/
def stylePrefixText : String :=
  "2D pixel art, isometric view, fantasy RPG style, warm color palette, soft shadows, 16-bit era aesthetic, transparent background, game asset, consistent top-left lighting, clean crisp pixel edges"

/-- Model of make_spec: records the fields build_prompt later reads;
art_direction is always the shared style string. -/
def makeSpec (title description : String) (width height : Nat)
    (category extra_style : String) : AssetSpec :=
  { title := title
    description := description
    variant := category
    art_direction := stylePrefixText
    extra := extra_style
    width_px := width
    height_px := height }

/-- Python str.join with a single-space separator, as build_prompt uses. -/
def joinSpace : List String → String
  | [] => ""
  | [s] => s
  | s :: rest => s ++ " " ++ joinSpace rest

/-- The prompt_parts list of build_prompt, in source order. -/
def promptParts (s : AssetSpec) : List String :=
  ["Generate a single game asset image.",
   "Art style: " ++ s.art_direction ++ ".",
   "Type: " ++ s.extra ++ ".",
   "Subject: " ++ s.title ++ ".",
   "Description: " ++ s.description ++ ".",
   "Dimensions: " ++ toString s.width_px ++ "x" ++ toString s.height_px ++ " pixels.",
   "Must have transparent background (PNG with alpha channel).",
   "No text, no labels, no watermarks. Just the game asset sprite."]

/-- Model of build_prompt: join the prompt parts with single spaces. -/
def buildPrompt (s : AssetSpec) : String :=
  joinSpace (promptParts s)

/-! ### The external service and the effect trace -/

/-- Behaviour of one client.models.generate_content call: the call can
raise an exception, return a response with no inline image data, or return
a response carrying an image payload (modelled by its byte size). -/
inductive Resp where
  | raised : Resp
  | empty : Resp
  | image (size : Nat) : Resp
deriving DecidableEq, Repr

/-- Image payload of a service response, if any. -/
def respImage : Resp → Option Nat
  | .raised => none
  | .empty => none
  | .image n => some n

/-- Observable effects of a run, in order: network calls to the generation
service, file writes, in-place post-processing of a written file, and
wall-clock sleeps (seconds; rationals, since the pacing delay option is a
float). -/
inductive Action where
  | netCall (prompt : String)
  | write (path : String) (size : Nat)
  | post (path : String) (w h : Nat)
  | sleep (seconds : ℚ)
deriving DecidableEq, Repr

/-- Predicate selecting network-call actions. -/
def isNetCall : Action → Bool
  | .netCall _ => true
  | _ => false

/-- Sleep duration of an action, if it is a sleep. -/
def sleepOf : Action → Option ℚ
  | .sleep q => some q
  | _ => none

/-- Written path of an action, if it is a write. -/
def writeOf : Action → Option String
  | .write p _ => some p
  | _ => none

/-- Sleep durations occurring in a trace, in order. -/
def sleepsOf (tr : List Action) : List ℚ :=
  tr.filterMap sleepOf

/-- Number of network calls in a trace. -/
def netCallsOf (tr : List Action) : Nat :=
  (tr.filter isNetCall).length

/-- Paths written by a trace. -/
def writesOf (tr : List Action) : List String :=
  tr.filterMap writeOf

/-- File-existence predicate after a run: a path exists if it existed
before or the run wrote it. -/
def existsAfter (fileExists : String → Bool) (tr : List Action) : String → Bool :=
  fun p => fileExists p || (writesOf tr).contains p

/-! ### generate_image of generate-world-assets.py -/

/-- Body of the attempt loop of generate_image.  The service oracle maps
the attempt index to the behaviour of that attempt.  On an image payload:
write the file and succeed.  On an empty response: sleep 2 before the next
attempt (if any remain).  On an exception: sleep 3 before the next attempt
(if any remain).  The fuel counts the remaining loop iterations of
range(retries + 1). -/
def genLoop (svc : Nat → Resp) (prompt path : String) (retries : Nat) :
    Nat → Nat → Bool × List Action
  | _, 0 => (false, [])
  | attempt, fuel + 1 =>
    match svc attempt with
    | .image n => (true, [.netCall prompt, .write path n])
    | .empty =>
      if attempt < retries then
        let rest := genLoop svc prompt path retries (attempt + 1) fuel
        (rest.1, .netCall prompt :: .sleep 2 :: rest.2)
      else
        (false, [.netCall prompt])
    | .raised =>
      if attempt < retries then
        let rest := genLoop svc prompt path retries (attempt + 1) fuel
        (rest.1, .netCall prompt :: .sleep 3 :: rest.2)
      else
        (false, [.netCall prompt])

/-- Model of generate_image: up to retries + 1 attempts starting at
attempt 0; returns the success flag and the trace of effects. -/
def generateImage (svc : Nat → Resp) (prompt path : String) (retries : Nat) :
    Bool × List Action :=
  genLoop svc prompt path retries 0 (retries + 1)

/-! ### The orchestrator (main of generate-world-assets.py) -/

/-- Per-record outcome of a generation run, as counted by the summary. -/
inductive Outcome where
  | generated : Outcome
  | skipped : Outcome
  | failed : Outcome
deriving DecidableEq, Repr

/-- The static catalog shape: category name to ordered list of
(relative output path, asset spec), as in ALL_CATEGORIES. -/
def Catalog : Type := List (String × List (String × AssetSpec))

/-- All records of a catalog in processing order (categories in declared
order, records in catalog order within each). -/
def catalogRecords (cats : Catalog) : List (String × AssetSpec) :=
  (cats.map Prod.snd).flatten

/-- Processing of one record in generation mode: skip if the output exists
and force is off (no effects); otherwise build the prompt and call
generate_image with the default 2 retries; on success optionally
post-process and then sleep the pacing delay; on failure record the
failure (with no pacing sleep, as in the source). -/
def processRecord (force noPost : Bool) (delay : ℚ) (fileExists : String → Bool)
    (svc : Nat → Resp) (rec : String × AssetSpec) : Outcome × List Action :=
  if fileExists rec.1 && !force then
    (.skipped, [])
  else
    let prompt := buildPrompt rec.2
    let res := generateImage svc prompt rec.1 2
    if res.1 then
      let postActs :=
        if !noPost then [Action.post rec.1 rec.2.width_px rec.2.height_px] else []
      (.generated, res.2 ++ postActs ++ [Action.sleep delay])
    else
      (.failed, res.2)

/-- The generation loop of main over a list of records, threading the
global record counter (which indexes the per-record service oracle). -/
def runRecords (force noPost : Bool) (delay : ℚ) (fileExists : String → Bool)
    (svc : Nat → Nat → Resp) : Nat → List (String × AssetSpec) →
    List (String × Outcome) × List Action
  | _, [] => ([], [])
  | i, rec :: rest =>
    let r := processRecord force noPost delay fileExists (svc i) rec
    let rs := runRecords force noPost delay fileExists svc (i + 1) rest
    ((rec.1, r.1) :: rs.1, r.2 ++ rs.2)

/-- Generation mode of main over a catalog: per-record outcomes in
processing order, plus the concatenated effect trace. -/
def genRun (cats : Catalog) (force noPost : Bool) (delay : ℚ)
    (fileExists : String → Bool) (svc : Nat → Nat → Resp) :
    List (String × Outcome) × List Action :=
  runRecords force noPost delay fileExists svc 0 (catalogRecords cats)

/-- Command-line options of generate-world-assets.py that affect the
orchestrator. -/
structure Args where
  list : Bool
  category : Option String
  force : Bool
  dry_run : Bool
  no_post : Bool
  export_specs : Option String
  delay : ℚ

/-- Stem of a path: final component without its last extension, as
pathlib Path(p).stem computes it. -/
def pathStem (p : String) : String :=
  let name := (p.splitOn "/").getLastD ""
  let parts := name.splitOn "."
  if parts.length ≤ 1 then name else String.intercalate "." parts.dropLast

/-- File writes performed by export_specs: one JSON file per asset under a
mirrored category directory tree. -/
def exportActions (cats : Catalog) (dir : String) : List Action :=
  (cats.map fun c =>
    c.2.map fun rec =>
      Action.write (dir ++ "/" ++ c.1 ++ "/" ++ pathStem rec.1 ++ ".json") 0).flatten

/-- Model of main: category filtering (exit 1 on an unknown category),
then the list / export-specs / dry-run modes (exit 0, no generation), then
the credential check (exit 1 when absent), then the generation loop
(exit 0 regardless of per-record failures).  Returns the exit code, the
per-record outcomes of generation mode, and the effect trace. -/
def mainRun (cats : Catalog) (args : Args) (apiKey : Bool)
    (fileExists : String → Bool) (svc : Nat → Nat → Resp) :
    Nat × List (String × Outcome) × List Action :=
  let sel : Option Catalog :=
    match args.category with
    | some c =>
      if cats.any (fun k => k.1 == c) then some (cats.filter fun k => k.1 == c)
      else none
    | none => some cats
  match sel with
  | none => (1, [], [])
  | some categories =>
    if args.list then (0, [], [])
    else
      match args.export_specs with
      | some dir => (0, [], exportActions categories dir)
      | none =>
        if args.dry_run then (0, [], [])
        else if !apiKey then (1, [], [])
        else
          let run := genRun categories args.force args.no_post args.delay fileExists svc
          (0, run.1, run.2)

/-! ### Concrete instances used by witnesses and counterexamples -/

/-- The first terrain tile of the static catalog (TERRAIN_TILES head),
with its description shortened; only the dimensions and paths matter to
the properties below. -/
def demoSpec : AssetSpec :=
  makeSpec "Grass Plains" "Lush green grassland tile" 48 48 "terrain"
    "isometric diamond-shaped terrain tile"

/-- A one-record catalog in the shape of ALL_CATEGORIES. -/
def demoCatalog : Catalog := [("tiles", [("tiles/grass_plains.png", demoSpec)])]

/-- A malformed asset spec: empty description and non-positive (zero)
dimensions. -/
def malformedSpec : AssetSpec :=
  { title := "Broken"
    description := ""
    variant := "terrain"
    art_direction := stylePrefixText
    extra := ""
    width_px := 0
    height_px := 0 }

/-- A service that fails its first two attempts and succeeds on the
third. -/
def svcThird : Nat → Resp := fun i => if i < 2 then .raised else .image 7

/-- Options requesting the unknown category foo. -/
def argsFoo : Args :=
  { list := false
    category := some "foo"
    force := false
    dry_run := false
    no_post := false
    export_specs := none
    delay := 1 }

/-- Substring relation on strings: the needle occurs contiguously in the
haystack. -/
def strContains (hay needle : String) : Prop :=
  ∃ pre post, hay = pre ++ (needle ++ post)

/-! ### Helper lemmas -/

set_option maxRecDepth 8000 in
/-- On bytes, the exact double computation truncMul03 coincides with
3 * a / 10 in integer arithmetic. -/
lemma truncMul03_eq_byte : ∀ a : Nat, a < 256 → truncMul03 a = 3 * a / 10 := by
  decide

set_option maxRecDepth 8000 in
/-- Bounds of the near-white alpha scaling on bytes: never larger than the
input, strictly smaller on positive input, and zero exactly on inputs at
most 3. -/
lemma truncMul03_bounds :
    ∀ a : Nat, a < 256 →
      truncMul03 a ≤ a ∧ (0 < a → truncMul03 a < a) ∧ (truncMul03 a = 0 ↔ a ≤ 3) := by
  decide

/-! ### Claim C3: alpha correction rule -/

/-- Counterexample to C3 as stated: in generate-world-assets.py a
near-white pixel with nonzero alpha 2 has its alpha forced to 0
(the claim says near-white alpha is never forced to zero), and in
generate-new-tiles.py a near-white pixel with alpha 50 is set to the
fixed value 100, which is not a reduction. -/
theorem alpha_rule_cex :
    (alphaCorrectWorld ⟨225, 225, 225, 2⟩).a = 0 ∧
    ¬ (alphaCorrectTiles ⟨225, 225, 225, 50⟩).a < 50 := by
  decide

/-- Claim C3 (amended): per-pixel alpha correction.  In
generate-world-assets.py: a pixel whose R, G and B all exceed 240 gets
alpha 0; a pixel whose channels all exceed 220 but not all exceed 240 has
its alpha multiplied by the double 0.3 and truncated, which never
increases it, strictly reduces it when it was positive, and zeroes it
exactly when it was at most 3; every other pixel is unchanged.  In
generate-new-tiles.py: all channels above 230 forces alpha 0; all
channels above 200 but not all above 230 sets alpha to the fixed value
100; every other pixel is unchanged. -/
theorem alpha_rule (p q : RGBA) (ha : p.a < 256) :
    (240 < p.r ∧ 240 < p.g ∧ 240 < p.b → (alphaCorrectWorld p).a = 0) ∧
    ((220 < p.r ∧ 220 < p.g ∧ 220 < p.b) ∧ ¬(240 < p.r ∧ 240 < p.g ∧ 240 < p.b) →
      (alphaCorrectWorld p).a = truncMul03 p.a ∧
      (alphaCorrectWorld p).a = 3 * p.a / 10 ∧
      (alphaCorrectWorld p).a ≤ p.a ∧
      (0 < p.a → (alphaCorrectWorld p).a < p.a) ∧
      ((alphaCorrectWorld p).a = 0 ↔ p.a ≤ 3)) ∧
    (¬(220 < p.r ∧ 220 < p.g ∧ 220 < p.b) → alphaCorrectWorld p = p) ∧
    (230 < q.r ∧ 230 < q.g ∧ 230 < q.b → (alphaCorrectTiles q).a = 0) ∧
    ((200 < q.r ∧ 200 < q.g ∧ 200 < q.b) ∧ ¬(230 < q.r ∧ 230 < q.g ∧ 230 < q.b) →
      (alphaCorrectTiles q).a = 100) ∧
    (¬(200 < q.r ∧ 200 < q.g ∧ 200 < q.b) → alphaCorrectTiles q = q) :=
  by
  obtain ⟨hb1, hb2, hb3⟩ := truncMul03_bounds p.a ha
  have heq := truncMul03_eq_byte p.a ha
  refine ⟨fun h => ?_, fun h => ?_, fun h => ?_, fun h => ?_, fun h => ?_, fun h => ?_⟩
  · simp [alphaCorrectWorld, h]
  · have hw : (alphaCorrectWorld p).a = truncMul03 p.a := by
      simp [alphaCorrectWorld, h.1, h.2]
    exact ⟨hw, hw ▸ heq, hw ▸ hb1, fun hp => hw ▸ hb2 hp, hw ▸ hb3⟩
  · have h' : ¬(240 < p.r ∧ 240 < p.g ∧ 240 < p.b) := by
      rintro ⟨h1, h2, h3⟩
      exact h ⟨by omega, by omega, by omega⟩
    simp [alphaCorrectWorld, h, h']
  · simp [alphaCorrectTiles, h]
  · simp [alphaCorrectTiles, h.1, h.2]
  · have h' : ¬(230 < q.r ∧ 230 < q.g ∧ 230 < q.b) := by
      rintro ⟨h1, h2, h3⟩
      exact h ⟨by omega, by omega, by omega⟩
    simp [alphaCorrectTiles, h, h']

/-- Witness for C3: the white pixel (255,255,255) with alpha 200 is
mapped to alpha 0. -/
theorem alpha_rule_witness : (alphaCorrectWorld ⟨255, 255, 255, 200⟩).a = 0 :=
  (alpha_rule ⟨255, 255, 255, 200⟩ ⟨0, 0, 0, 0⟩ (by decide)).1 (by decide)

/-! ### Claim C5: post-process dimension invariant -/

/-- Claim C5: after post-processing, the image has exactly the target
width and height, for every resampling kernel and every input image; the
generate-new-tiles.py variant always produces 128 x 128. -/
theorem post_process_dims (ker ker2 : Kernel) (img img2 : Img) (tw th : Nat) :
    ((postProcess ker img tw th).width = tw ∧ (postProcess ker img tw th).height = th) ∧
    ((postProcessTiles ker2 img2).width = 128 ∧ (postProcessTiles ker2 img2).height = 128) := by
  refine ⟨?_, by simp [postProcessTiles, resize]⟩
  unfold postProcess resizeStep resize
  by_cases h : (img.width, img.height) ≠ (tw, th)
  · simp [h]
  · rw [not_not] at h
    obtain ⟨h1, h2⟩ := Prod.mk.injEq .. |>.mp h
    simp [h, h1, h2]

/-! ### Claim C10: alpha correction only writes the alpha channel -/

/-- Claim C10: the alpha-correction step never changes the R, G or B
channel of any pixel, in either script; lifted to post_process, the saved
image agrees with the resized image on R, G and B everywhere. -/
theorem alpha_preserves_rgb (p q : RGBA) (ker ker2 : Kernel) (img img2 : Img)
    (tw th x y u v : Nat) :
    ((alphaCorrectWorld p).r = p.r ∧ (alphaCorrectWorld p).g = p.g ∧
      (alphaCorrectWorld p).b = p.b) ∧
    ((alphaCorrectTiles q).r = q.r ∧ (alphaCorrectTiles q).g = q.g ∧
      (alphaCorrectTiles q).b = q.b) ∧
    (((postProcess ker img tw th).pix x y).r = ((resizeStep ker img tw th).pix x y).r ∧
      ((postProcess ker img tw th).pix x y).g = ((resizeStep ker img tw th).pix x y).g ∧
      ((postProcess ker img tw th).pix x y).b = ((resizeStep ker img tw th).pix x y).b) ∧
    (((postProcessTiles ker2 img2).pix u v).r = ((resize ker2 img2 128 128).pix u v).r ∧
      ((postProcessTiles ker2 img2).pix u v).g = ((resize ker2 img2 128 128).pix u v).g ∧
      ((postProcessTiles ker2 img2).pix u v).b = ((resize ker2 img2 128 128).pix u v).b) := by
  have hw : ∀ r : RGBA, (alphaCorrectWorld r).r = r.r ∧ (alphaCorrectWorld r).g = r.g ∧
      (alphaCorrectWorld r).b = r.b := by
    intro r
    unfold alphaCorrectWorld
    split
    · simp
    · split <;> simp
  have ht : ∀ r : RGBA, (alphaCorrectTiles r).r = r.r ∧ (alphaCorrectTiles r).g = r.g ∧
      (alphaCorrectTiles r).b = r.b := by
    intro r
    unfold alphaCorrectTiles
    split
    · simp
    · split <;> simp
  exact ⟨hw p, ht q, hw ((resizeStep ker img tw th).pix x y),
    ht ((resize ker2 img2 128 128).pix u v)⟩

/-! ### Claim C9: prompt synthesis -/

/-- Claim C9: build_prompt is a pure function of the spec (in this
embedding, a Lean function, so two calls on the same spec are literally
the same string), and for every spec the prompt contains the title, the
exact substring WxH pixels formatted from the dimensions, and the
explicit transparency requirement. -/
theorem prompt_synthesis (s : AssetSpec) :
    buildPrompt s = buildPrompt s ∧
    strContains (buildPrompt s) s.title ∧
    strContains (buildPrompt s)
      (toString s.width_px ++ "x" ++ toString s.height_px ++ " pixels") ∧
    strContains (buildPrompt s) "Must have transparent background (PNG with alpha channel)." := by
  refine ⟨rfl, ?_, ?_, ?_⟩
  · refine ⟨"Generate a single game asset image." ++ " " ++ "Art style: " ++
      s.art_direction ++ "." ++ " " ++ "Type: " ++ s.extra ++ "." ++ " " ++ "Subject: ",
      "." ++ " " ++ "Description: " ++ s.description ++ "." ++ " " ++
      "Dimensions: " ++ toString s.width_px ++ "x" ++ toString s.height_px ++
      " pixels." ++ " " ++ "Must have transparent background (PNG with alpha channel)." ++
      " " ++ "No text, no labels, no watermarks. Just the game asset sprite.", ?_⟩
    apply String.ext
    simp [buildPrompt, promptParts, joinSpace, String.data_append, List.append_assoc]
  · refine ⟨"Generate a single game asset image." ++ " " ++ "Art style: " ++
      s.art_direction ++ "." ++ " " ++ "Type: " ++ s.extra ++ "." ++ " " ++ "Subject: " ++
      s.title ++ "." ++ " " ++ "Description: " ++ s.description ++ "." ++ " " ++
      "Dimensions: ",
      "." ++ " " ++ "Must have transparent background (PNG with alpha channel)." ++
      " " ++ "No text, no labels, no watermarks. Just the game asset sprite.", ?_⟩
    apply String.ext
    simp [buildPrompt, promptParts, joinSpace, String.data_append, List.append_assoc]
  · refine ⟨"Generate a single game asset image." ++ " " ++ "Art style: " ++
      s.art_direction ++ "." ++ " " ++ "Type: " ++ s.extra ++ "." ++ " " ++ "Subject: " ++
      s.title ++ "." ++ " " ++ "Description: " ++ s.description ++ "." ++ " " ++
      "Dimensions: " ++ toString s.width_px ++ "x" ++ toString s.height_px ++
      " pixels." ++ " ",
      " " ++ "No text, no labels, no watermarks. Just the game asset sprite.", ?_⟩
    apply String.ext
    simp [buildPrompt, promptParts, joinSpace, String.data_append, List.append_assoc]

/-! ### Lemmas about the generate_image loop -/

lemma sleepsOf_nil : sleepsOf [] = [] := rfl

lemma sleepsOf_netCall_cons (p : String) (tr : List Action) :
    sleepsOf (.netCall p :: tr) = sleepsOf tr := by
  simp [sleepsOf, sleepOf]

lemma sleepsOf_write_cons (f : String) (n : Nat) (tr : List Action) :
    sleepsOf (.write f n :: tr) = sleepsOf tr := by
  simp [sleepsOf, sleepOf]

lemma sleepsOf_sleep_cons (q : ℚ) (tr : List Action) :
    sleepsOf (.sleep q :: tr) = q :: sleepsOf tr := by
  simp [sleepsOf, sleepOf]

lemma netCallsOf_nil : netCallsOf [] = 0 := rfl

lemma netCallsOf_netCall_cons (p : String) (tr : List Action) :
    netCallsOf (.netCall p :: tr) = netCallsOf tr + 1 := by
  simp [netCallsOf, isNetCall, Nat.add_comm]

lemma netCallsOf_write_cons (f : String) (n : Nat) (tr : List Action) :
    netCallsOf (.write f n :: tr) = netCallsOf tr := by
  simp [netCallsOf, isNetCall]

lemma netCallsOf_sleep_cons (q : ℚ) (tr : List Action) :
    netCallsOf (.sleep q :: tr) = netCallsOf tr := by
  simp [netCallsOf, isNetCall]

lemma genLoop_zero (svc : Nat → Resp) (p f : String) (r attempt : Nat) :
    genLoop svc p f r attempt 0 = (false, []) := rfl

lemma genLoop_image (svc : Nat → Resp) (p f : String) (r attempt fuel n : Nat)
    (hs : svc attempt = .image n) :
    genLoop svc p f r attempt (fuel + 1) = (true, [.netCall p, .write f n]) := by
  simp [genLoop, hs]

lemma genLoop_empty_step (svc : Nat → Resp) (p f : String) (r attempt fuel : Nat)
    (hs : svc attempt = .empty) (hlt : attempt < r) :
    genLoop svc p f r attempt (fuel + 1) =
      ((genLoop svc p f r (attempt + 1) fuel).1,
        .netCall p :: .sleep 2 :: (genLoop svc p f r (attempt + 1) fuel).2) := by
  simp [genLoop, hs, hlt]

lemma genLoop_empty_last (svc : Nat → Resp) (p f : String) (r attempt fuel : Nat)
    (hs : svc attempt = .empty) (hnlt : ¬ attempt < r) :
    genLoop svc p f r attempt (fuel + 1) = (false, [.netCall p]) := by
  simp [genLoop, hs, hnlt]

lemma genLoop_raised_step (svc : Nat → Resp) (p f : String) (r attempt fuel : Nat)
    (hs : svc attempt = .raised) (hlt : attempt < r) :
    genLoop svc p f r attempt (fuel + 1) =
      ((genLoop svc p f r (attempt + 1) fuel).1,
        .netCall p :: .sleep 3 :: (genLoop svc p f r (attempt + 1) fuel).2) := by
  simp [genLoop, hs, hlt]

lemma genLoop_raised_last (svc : Nat → Resp) (p f : String) (r attempt fuel : Nat)
    (hs : svc attempt = .raised) (hnlt : ¬ attempt < r) :
    genLoop svc p f r attempt (fuel + 1) = (false, [.netCall p]) := by
  simp [genLoop, hs, hnlt]

lemma respImage_none_cases {x : Resp} (h : respImage x = none) :
    x = .raised ∨ x = .empty := by
  cases x <;> simp_all [respImage]

lemma respImage_some_iff {x : Resp} {n : Nat} : respImage x = some n ↔ x = .image n := by
  cases x <;> simp [respImage]

lemma genLoop_ne_nil (svc : Nat → Resp) (p f : String) (r attempt fuel : Nat) :
    (genLoop svc p f r attempt (fuel + 1)).2 ≠ [] := by
  cases h : svc attempt <;> by_cases hlt : attempt < r <;>
    simp [genLoop, h, hlt]

lemma genLoop_head (svc : Nat → Resp) (p f : String) (r attempt fuel : Nat) :
    ((genLoop svc p f r attempt (fuel + 1)).2).head? = some (.netCall p) := by
  cases h : svc attempt <;> by_cases hlt : attempt < r <;>
    simp [genLoop, h, hlt]

lemma genLoop_netCalls_le (svc : Nat → Resp) (p f : String) (r : Nat) :
    ∀ fuel attempt, netCallsOf (genLoop svc p f r attempt fuel).2 ≤ fuel := by
  intro fuel
  induction fuel with
  | zero => intro attempt; simp [genLoop, netCallsOf]
  | succ n ih =>
    intro attempt
    cases h : svc attempt with
    | image k => simp [genLoop, h, netCallsOf, isNetCall]
    | empty =>
      by_cases hlt : attempt < r
      · have := ih (attempt + 1)
        simp only [genLoop, h, hlt, if_true, netCallsOf, List.filter, isNetCall] at this ⊢
        simpa using Nat.succ_le_succ this
      · simp [genLoop, h, hlt, netCallsOf, isNetCall]
    | raised =>
      by_cases hlt : attempt < r
      · have := ih (attempt + 1)
        simp only [genLoop, h, hlt, if_true, netCallsOf, List.filter, isNetCall] at this ⊢
        simpa using Nat.succ_le_succ this
      · simp [genLoop, h, hlt, netCallsOf, isNetCall]

lemma genLoop_netCalls_pos (svc : Nat → Resp) (p f : String) (r attempt fuel : Nat) :
    1 ≤ netCallsOf (genLoop svc p f r attempt (fuel + 1)).2 := by
  cases h : svc attempt <;> by_cases hlt : attempt < r <;>
    simp [genLoop, h, hlt, netCallsOf, isNetCall]

lemma genLoop_success_write (svc : Nat → Resp) (p f : String) (r : Nat) :
    ∀ fuel attempt, (genLoop svc p f r attempt fuel).1 = true →
      ∃ n, Action.write f n ∈ (genLoop svc p f r attempt fuel).2 := by
  intro fuel
  induction fuel with
  | zero => intro attempt h; simp [genLoop] at h
  | succ m ih =>
    intro attempt h
    cases hs : svc attempt with
    | image k =>
      refine ⟨k, ?_⟩
      simp [genLoop, hs]
    | empty =>
      by_cases hlt : attempt < r
      · simp only [genLoop, hs, hlt, if_true] at h ⊢
        obtain ⟨n, hn⟩ := ih (attempt + 1) h
        exact ⟨n, by simp [hn]⟩
      · simp [genLoop, hs, hlt] at h
    | raised =>
      by_cases hlt : attempt < r
      · simp only [genLoop, hs, hlt, if_true] at h ⊢
        obtain ⟨n, hn⟩ := ih (attempt + 1) h
        exact ⟨n, by simp [hn]⟩
      · simp [genLoop, hs, hlt] at h

lemma genLoop_fail_getLast (svc : Nat → Resp) (p f : String) (r : Nat) :
    ∀ fuel attempt, attempt + fuel = r + 1 → attempt ≤ r →
      (genLoop svc p f r attempt fuel).1 = false →
      ((genLoop svc p f r attempt fuel).2).getLast? = some (.netCall p) := by
  intro fuel
  induction fuel with
  | zero =>
    intro attempt hinv hle h
    exfalso
    omega
  | succ m ih =>
    intro attempt hinv hle h
    cases hs : svc attempt with
    | image k => simp [genLoop, hs] at h
    | empty =>
      by_cases hlt : attempt < r
      · obtain ⟨m', rfl⟩ : ∃ m', m = m' + 1 := ⟨m - 1, by omega⟩
        simp only [genLoop, hs, hlt, if_true] at h ⊢
        have hne := genLoop_ne_nil svc p f r (attempt + 1) m'
        have hlast := ih (attempt + 1) (by omega) (by omega) h
        calc ((Action.netCall p :: Action.sleep 2 ::
                (genLoop svc p f r (attempt + 1) (m' + 1)).2)).getLast?
            = (([Action.netCall p, Action.sleep 2] ++
                (genLoop svc p f r (attempt + 1) (m' + 1)).2)).getLast? := by simp
          _ = ((genLoop svc p f r (attempt + 1) (m' + 1)).2).getLast? :=
              List.getLast?_append_of_ne_nil _ hne
          _ = some (.netCall p) := hlast
      · simp [genLoop, hs, hlt]
    | raised =>
      by_cases hlt : attempt < r
      · obtain ⟨m', rfl⟩ : ∃ m', m = m' + 1 := ⟨m - 1, by omega⟩
        simp only [genLoop, hs, hlt, if_true] at h ⊢
        have hne := genLoop_ne_nil svc p f r (attempt + 1) m'
        have hlast := ih (attempt + 1) (by omega) (by omega) h
        calc ((Action.netCall p :: Action.sleep 3 ::
                (genLoop svc p f r (attempt + 1) (m' + 1)).2)).getLast?
            = (([Action.netCall p, Action.sleep 3] ++
                (genLoop svc p f r (attempt + 1) (m' + 1)).2)).getLast? := by simp
          _ = ((genLoop svc p f r (attempt + 1) (m' + 1)).2).getLast? :=
              List.getLast?_append_of_ne_nil _ hne
          _ = some (.netCall p) := hlast
      · simp [genLoop, hs, hlt]

lemma generateImage_head (svc : Nat → Resp) (p f : String) (r : Nat) :
    ((generateImage svc p f r).2).head? = some (.netCall p) :=
  genLoop_head svc p f r 0 r

lemma generateImage_fail_getLast (svc : Nat → Resp) (p f : String) (r : Nat)
    (h : (generateImage svc p f r).1 = false) :
    ((generateImage svc p f r).2).getLast? = some (.netCall p) :=
  genLoop_fail_getLast svc p f r (r + 1) 0 (by omega) (by omega) h

lemma generateImage_success_write (svc : Nat → Resp) (p f : String) (r : Nat)
    (h : (generateImage svc p f r).1 = true) :
    ∃ n, Action.write f n ∈ (generateImage svc p f r).2 :=
  genLoop_success_write svc p f r (r + 1) 0 h

lemma genLoop_resp_congr (svc svc' : Nat → Resp) (p f : String) (r : Nat)
    (h : ∀ i, respImage (svc i) = respImage (svc' i)) :
    ∀ fuel attempt,
      (genLoop svc' p f r attempt fuel).1 = (genLoop svc p f r attempt fuel).1 ∧
      netCallsOf (genLoop svc' p f r attempt fuel).2 =
        netCallsOf (genLoop svc p f r attempt fuel).2 ∧
      writesOf (genLoop svc' p f r attempt fuel).2 =
        writesOf (genLoop svc p f r attempt fuel).2 := by
  intro fuel
  induction fuel with
  | zero => intro attempt; simp [genLoop]
  | succ m ih =>
    intro attempt
    have ha := h attempt
    cases hs : svc attempt with
    | image k =>
      have hs' : svc' attempt = .image k := by
        rw [hs] at ha
        exact respImage_some_iff.mp ha.symm
      simp [genLoop, hs, hs']
    | empty =>
      rw [hs] at ha
      have hnone : respImage (svc' attempt) = none := ha.symm
      obtain ⟨i1, i2, i3⟩ := ih (attempt + 1)
      simp only [netCallsOf, writesOf] at i2 i3
      rcases respImage_none_cases hnone with hs' | hs' <;>
        by_cases hlt : attempt < r <;>
          simp [genLoop, hs, hs', hlt, netCallsOf, writesOf, isNetCall, writeOf,
            sleepOf, i1, i2, i3]
    | raised =>
      rw [hs] at ha
      have hnone : respImage (svc' attempt) = none := ha.symm
      obtain ⟨i1, i2, i3⟩ := ih (attempt + 1)
      simp only [netCallsOf, writesOf] at i2 i3
      rcases respImage_none_cases hnone with hs' | hs' <;>
        by_cases hlt : attempt < r <;>
          simp [genLoop, hs, hs', hlt, netCallsOf, writesOf, isNetCall, writeOf,
            sleepOf, i1, i2, i3]

lemma genLoop_sleeps (svc : Nat → Resp) (p f : String) (r : Nat) :
    ∀ fuel attempt, attempt + fuel = r + 1 →
      sleepsOf (genLoop svc p f r attempt fuel).2 =
        (List.range (netCallsOf (genLoop svc p f r attempt fuel).2 - 1)).map
          (fun j => if svc (attempt + j) = .empty then (2 : ℚ) else 3) := by
  intro fuel
  induction fuel with
  | zero => intro attempt hinv; simp [genLoop_zero, sleepsOf_nil, netCallsOf_nil]
  | succ m ih =>
    intro attempt hinv
    cases hs : svc attempt with
    | image k =>
      rw [genLoop_image svc p f r attempt m k hs]
      simp [sleepsOf_netCall_cons, sleepsOf_write_cons, sleepsOf_nil,
        netCallsOf_netCall_cons, netCallsOf_write_cons, netCallsOf_nil]
    | empty =>
      by_cases hlt : attempt < r
      · obtain ⟨m', rfl⟩ : ∃ m', m = m' + 1 := ⟨m - 1, by omega⟩
        rw [genLoop_empty_step svc p f r attempt (m' + 1) hs hlt]
        simp only [sleepsOf_netCall_cons, sleepsOf_sleep_cons,
          netCallsOf_netCall_cons, netCallsOf_sleep_cons, Nat.add_sub_cancel]
        have hpos := genLoop_netCalls_pos svc p f r (attempt + 1) m'
        obtain ⟨c, hc⟩ : ∃ c, netCallsOf (genLoop svc p f r (attempt + 1) (m' + 1)).2
            = c + 1 :=
          ⟨netCallsOf (genLoop svc p f r (attempt + 1) (m' + 1)).2 - 1, by omega⟩
        have htail := ih (attempt + 1) (by omega)
        rw [hc, List.range_succ_eq_map, List.map_cons, List.map_map]
        congr 1
        · simp [hs]
        · rw [htail, hc, Nat.add_sub_cancel]
          apply List.map_congr_left
          intro j _
          have harith : attempt + 1 + j = attempt + (j + 1) := by omega
          simp only [Function.comp_apply, Nat.succ_eq_add_one, harith]
      · have hm : m = 0 := by omega
        subst hm
        rw [genLoop_empty_last svc p f r attempt 0 hs hlt]
        simp [sleepsOf_netCall_cons, sleepsOf_nil, netCallsOf_netCall_cons,
          netCallsOf_nil]
    | raised =>
      by_cases hlt : attempt < r
      · obtain ⟨m', rfl⟩ : ∃ m', m = m' + 1 := ⟨m - 1, by omega⟩
        rw [genLoop_raised_step svc p f r attempt (m' + 1) hs hlt]
        simp only [sleepsOf_netCall_cons, sleepsOf_sleep_cons,
          netCallsOf_netCall_cons, netCallsOf_sleep_cons, Nat.add_sub_cancel]
        have hpos := genLoop_netCalls_pos svc p f r (attempt + 1) m'
        obtain ⟨c, hc⟩ : ∃ c, netCallsOf (genLoop svc p f r (attempt + 1) (m' + 1)).2
            = c + 1 :=
          ⟨netCallsOf (genLoop svc p f r (attempt + 1) (m' + 1)).2 - 1, by omega⟩
        have htail := ih (attempt + 1) (by omega)
        rw [hc, List.range_succ_eq_map, List.map_cons, List.map_map]
        congr 1
        · simp [hs]
        · rw [htail, hc, Nat.add_sub_cancel]
          apply List.map_congr_left
          intro j _
          have harith : attempt + 1 + j = attempt + (j + 1) := by omega
          simp only [Function.comp_apply, Nat.succ_eq_add_one, harith]
      · have hm : m = 0 := by omega
        subst hm
        rw [genLoop_raised_last svc p f r attempt 0 hs hlt]
        simp [sleepsOf_netCall_cons, sleepsOf_nil, netCallsOf_netCall_cons,
          netCallsOf_nil]

lemma genLoop_fail_step_flag (svc : Nat → Resp) (p f : String) (r attempt fuel : Nat)
    (hnone : respImage (svc attempt) = none) (hlt : attempt < r) :
    (genLoop svc p f r attempt (fuel + 1)).1 =
      (genLoop svc p f r (attempt + 1) fuel).1 := by
  rcases respImage_none_cases hnone with hs | hs
  · rw [genLoop_raised_step svc p f r attempt fuel hs hlt]
  · rw [genLoop_empty_step svc p f r attempt fuel hs hlt]

lemma genLoop_fail_last_flag (svc : Nat → Resp) (p f : String) (r attempt fuel : Nat)
    (hnone : respImage (svc attempt) = none) (hnlt : ¬ attempt < r) :
    (genLoop svc p f r attempt (fuel + 1)).1 = false := by
  rcases respImage_none_cases hnone with hs | hs
  · rw [genLoop_raised_last svc p f r attempt fuel hs hnlt]
  · rw [genLoop_empty_last svc p f r attempt fuel hs hnlt]

/-! ### Claim C4: retry budget -/

/-- Claim C4: generate_image makes at most 1 + retries network calls; a
service failing its first two attempts and succeeding on the third yields
success exactly when retries is at least 2 (main maps the success flag to
the Generated outcome and the failure flag to Failed); and a response
without an image payload drives the loop exactly like a raised transport
error: any two services with identical image payloads per attempt produce
the same success flag, the same number of attempts and the same writes. -/
theorem retry_budget (svc : Nat → Resp) (p f : String) (retries : Nat) :
    netCallsOf (generateImage svc p f retries).2 ≤ retries + 1 ∧
    (respImage (svc 0) = none → respImage (svc 1) = none →
      (∃ n, svc 2 = .image n) →
      ((generateImage svc p f retries).1 = true ↔ 2 ≤ retries)) ∧
    (∀ svc' : Nat → Resp, (∀ i, respImage (svc i) = respImage (svc' i)) →
      (generateImage svc' p f retries).1 = (generateImage svc p f retries).1 ∧
      netCallsOf (generateImage svc' p f retries).2 =
        netCallsOf (generateImage svc p f retries).2 ∧
      writesOf (generateImage svc' p f retries).2 =
        writesOf (generateImage svc p f retries).2) := by
  refine ⟨genLoop_netCalls_le svc p f retries (retries + 1) 0, ?_, ?_⟩
  · intro h0 h1 h2
    obtain ⟨n, hn⟩ := h2
    match retries with
    | 0 =>
      have e0 : (generateImage svc p f 0).1 = false :=
        genLoop_fail_last_flag svc p f 0 0 0 h0 (by omega)
      rw [e0]
      simp
    | 1 =>
      have e0 : (generateImage svc p f 1).1 = (genLoop svc p f 1 1 1).1 :=
        genLoop_fail_step_flag svc p f 1 0 1 h0 (by omega)
      have e1 : (genLoop svc p f 1 1 1).1 = false :=
        genLoop_fail_last_flag svc p f 1 1 0 h1 (by omega)
      rw [e0, e1]
      simp
    | k + 2 =>
      have e0 : (generateImage svc p f (k + 2)).1 =
          (genLoop svc p f (k + 2) 1 (k + 2)).1 :=
        genLoop_fail_step_flag svc p f (k + 2) 0 (k + 2) h0 (by omega)
      have e1 : (genLoop svc p f (k + 2) 1 (k + 2)).1 =
          (genLoop svc p f (k + 2) 2 (k + 1)).1 :=
        genLoop_fail_step_flag svc p f (k + 2) 1 (k + 1) h1 (by omega)
      have e2 : (genLoop svc p f (k + 2) 2 (k + 1)).1 = true := by
        rw [genLoop_image svc p f (k + 2) 2 k n hn]
      rw [e0, e1, e2]
      simp
  · intro svc' hcong
    exact genLoop_resp_congr svc svc' p f retries hcong (retries + 1) 0

/-- Witness for C4: against the concrete service failing twice then
succeeding, generate_image with the default 2 retries succeeds. -/
theorem retry_budget_witness : (generateImage svcThird "p" "f" 2).1 = true :=
  ((retry_budget svcThird "p" "f" 2).2.1 (by decide) (by decide)
    ⟨7, by decide⟩).mpr (by omega)

/-! ### Claim C6: backoff schedule -/

/-- Counterexample to C6 as stated: with a service raising on every
attempt and the default 2 retries, the waits between successive attempts
are 3 and 3 — constant, not strictly increasing, so the schedule is not
exponentially tiered. -/
theorem backoff_cex :
    sleepsOf (generateImage (fun _ => .raised) "p" "f" 2).2 = [3, 3] ∧
    ¬ List.Chain' (fun a b : ℚ => a < b)
      (sleepsOf (generateImage (fun _ => .raised) "p" "f" 2).2) := by
  have h : sleepsOf (generateImage (fun _ => .raised) "p" "f" 2).2 = [3, 3] := rfl
  refine ⟨h, ?_⟩
  rw [h]
  simp [List.chain'_cons]

/-- Claim C6 (amended): the waits between successive attempts of one
generate_image call are constant per failure kind, not exponentially
tiered: the wait after attempt j is 2 seconds when that attempt returned
an empty response and 3 seconds when it raised, and in particular every
wait is 2 or 3. -/
theorem backoff_schedule (svc : Nat → Resp) (p f : String) (retries : Nat) :
    sleepsOf (generateImage svc p f retries).2 =
      (List.range (netCallsOf (generateImage svc p f retries).2 - 1)).map
        (fun j => if svc j = .empty then (2 : ℚ) else 3) ∧
    ∀ q ∈ sleepsOf (generateImage svc p f retries).2, q = 2 ∨ q = 3 := by
  have h := genLoop_sleeps svc p f retries (retries + 1) 0 (by omega)
  simp only [Nat.zero_add] at h
  refine ⟨h, ?_⟩
  intro q hq
  rw [show (generateImage svc p f retries) = genLoop svc p f retries 0 (retries + 1)
    from rfl, h] at hq
  simp only [List.mem_map] at hq
  obtain ⟨j, _, hj⟩ := hq
  by_cases hsj : svc j = .empty
  · rw [if_pos hsj] at hj
    exact Or.inl hj.symm
  · rw [if_neg hsj] at hj
    exact Or.inr hj.symm

/-- Witness for C6 (amended): the wait observed in the all-raising run is
one of the two constants (here 3). -/
theorem backoff_schedule_witness : (3 : ℚ) = 2 ∨ (3 : ℚ) = 3 :=
  (backoff_schedule (fun _ => .raised) "p" "f" 2).2 3
    (show (3 : ℚ) ∈ ([3, 3] : List ℚ) by simp)

/-! ### Lemmas about per-record processing -/

lemma head?_append_of_head? {α : Type} {l₁ l₂ : List α} {a : α}
    (h : l₁.head? = some a) : (l₁ ++ l₂).head? = some a := by
  cases l₁ with
  | nil => simp at h
  | cons x t => simp_all

lemma processRecord_skip (noPost : Bool) (delay : ℚ) (ex : String → Bool)
    (svc : Nat → Resp) (rec : String × AssetSpec) (hex : ex rec.1 = true) :
    processRecord false noPost delay ex svc rec = (.skipped, []) := by
  simp [processRecord, hex]

lemma processRecord_not_skip_outcome (force noPost : Bool) (delay : ℚ)
    (ex : String → Bool) (svc : Nat → Resp) (rec : String × AssetSpec)
    (h : (ex rec.1 && !force) = false) :
    (processRecord force noPost delay ex svc rec).1 = .generated ∨
      (processRecord force noPost delay ex svc rec).1 = .failed := by
  by_cases hs : (generateImage svc (buildPrompt rec.2) rec.1 2).1 = true
  · left
    simp [processRecord, h, hs]
  · right
    simp [processRecord, h, hs]

lemma processRecord_generated_write (force noPost : Bool) (delay : ℚ)
    (ex : String → Bool) (svc : Nat → Resp) (rec : String × AssetSpec)
    (hgen : (processRecord force noPost delay ex svc rec).1 = .generated) :
    rec.1 ∈ writesOf (processRecord force noPost delay ex svc rec).2 := by
  by_cases hcond : (ex rec.1 && !force) = true
  · simp [processRecord, hcond] at hgen
  · have hcond' : (ex rec.1 && !force) = false := by
      revert hcond
      cases ex rec.1 && !force <;> simp
    by_cases hs : (generateImage svc (buildPrompt rec.2) rec.1 2).1 = true
    · obtain ⟨n, hn⟩ := generateImage_success_write svc (buildPrompt rec.2) rec.1 2 hs
      have hmem : rec.1 ∈ writesOf (generateImage svc (buildPrompt rec.2) rec.1 2).2 :=
        List.mem_filterMap.mpr ⟨.write rec.1 n, hn, rfl⟩
      simp only [processRecord, hcond', Bool.false_eq_true, if_false, hs, if_true]
      simp only [writesOf, List.filterMap_append] at hmem ⊢
      exact List.mem_append_left _ (List.mem_append_left _ hmem)
    · simp [processRecord, hcond', hs] at hgen

/-! ### Claim C2: pacing sleep -/

/-- Counterexample to C2 as stated: running the orchestrator on a
one-record catalog whose generation fails on every attempt produces a
trace ending in the last network call, with no pacing sleep of the
configured 1-second delay anywhere — the source sleeps the inter-call
delay only inside the success branch. -/
theorem pacing_cex :
    (genRun demoCatalog false false 1 (fun _ => false) (fun _ _ => .raised)).1 =
      [("tiles/grass_plains.png", .failed)] ∧
    ((genRun demoCatalog false false 1 (fun _ => false) (fun _ _ => .raised)).2).count
      (.sleep 1) = 0 ∧
    ((genRun demoCatalog false false 1 (fun _ => false) (fun _ _ => .raised)).2).getLast? =
      some (.netCall (buildPrompt demoSpec)) := by
  refine ⟨rfl, rfl, rfl⟩

/-- Claim C2 (amended): in generation mode the pacing sleep of
inter_call_delay happens only after a record whose generation call
succeeded (after its optional post-processing); after a failed record the
trace ends with the final network call and no pacing sleep occurs. -/
theorem pacing_sleep_only_on_success (force noPost : Bool) (delay : ℚ)
    (ex : String → Bool) (svc : Nat → Resp) (rec : String × AssetSpec)
    (h : (ex rec.1 && !force) = false) :
    ((processRecord force noPost delay ex svc rec).1 = .generated →
      ((processRecord force noPost delay ex svc rec).2).getLast? =
        some (.sleep delay)) ∧
    ((processRecord force noPost delay ex svc rec).1 = .failed →
      ((processRecord force noPost delay ex svc rec).2).getLast? =
        some (.netCall (buildPrompt rec.2))) := by
  by_cases hs : (generateImage svc (buildPrompt rec.2) rec.1 2).1 = true
  · constructor
    · intro _
      simp only [processRecord, h, Bool.false_eq_true, if_false, hs, if_true]
      exact List.getLast?_concat _
    · intro hfail
      simp [processRecord, h, hs] at hfail
  · constructor
    · intro hgen
      simp [processRecord, h, hs] at hgen
    · intro _
      have hs' : (generateImage svc (buildPrompt rec.2) rec.1 2).1 = false := by
        revert hs
        cases (generateImage svc (buildPrompt rec.2) rec.1 2).1 <;> simp
      simp only [processRecord, h, Bool.false_eq_true, if_false, hs, if_true]
      exact generateImage_fail_getLast svc (buildPrompt rec.2) rec.1 2 hs'

/-- Witness for C2 (amended): a record generated by an immediately
succeeding service ends its trace with the pacing sleep. -/
theorem pacing_witness :
    ((processRecord false false 1 (fun _ => false) (fun _ => .image 7)
      ("tiles/grass_plains.png", demoSpec)).2).getLast? = some (.sleep 1) :=
  (pacing_sleep_only_on_success false false 1 (fun _ => false) (fun _ => .image 7)
    ("tiles/grass_plains.png", demoSpec) rfl).1 (by decide)

/-! ### Claim C7: no InvalidSpec rejection -/

/-- Counterexample to C7 as stated: a catalog record with an empty
description and zero dimensions is not rejected before prompt synthesis;
the orchestrator builds its prompt, calls the service with it and records
Generated when the service succeeds — there is no InvalidSpec error path
in the implementation. -/
theorem invalid_spec_cex :
    (genRun [("tiles", [("tiles/broken.png", malformedSpec)])] false true 1
      (fun _ => false) (fun _ _ => .image 7)).1 = [("tiles/broken.png", .generated)] ∧
    ((genRun [("tiles", [("tiles/broken.png", malformedSpec)])] false true 1
      (fun _ => false) (fun _ _ => .image 7)).2).head? =
      some (.netCall (buildPrompt malformedSpec)) := by
  refine ⟨rfl, rfl⟩

/-- Claim C7 (amended): the pipeline performs no validation of asset
specs: for every record that is not skipped, whatever its description or
dimensions, the first effect is the network call carrying the prompt
synthesized from the spec (build_prompt is total, applied to malformed
specs as well), and the only possible outcomes are Generated and Failed —
no InvalidSpec error exists. -/
theorem no_spec_validation (force noPost : Bool) (delay : ℚ) (ex : String → Bool)
    (svc : Nat → Resp) (rec : String × AssetSpec)
    (h : (ex rec.1 && !force) = false) :
    ((processRecord force noPost delay ex svc rec).2).head? =
      some (.netCall (buildPrompt rec.2)) ∧
    ((processRecord force noPost delay ex svc rec).1 = .generated ∨
      (processRecord force noPost delay ex svc rec).1 = .failed) := by
  refine ⟨?_, processRecord_not_skip_outcome force noPost delay ex svc rec h⟩
  have hhead := generateImage_head svc (buildPrompt rec.2) rec.1 2
  by_cases hs : (generateImage svc (buildPrompt rec.2) rec.1 2).1 = true
  · simp only [processRecord, h, Bool.false_eq_true, if_false, hs, if_true]
    exact head?_append_of_head? (head?_append_of_head? hhead)
  · simp only [processRecord, h, Bool.false_eq_true, if_false, hs, if_true]
    exact hhead

/-- Witness for C7 (amended): the malformed spec with empty description
and zero dimensions is processed and its prompt reaches the service. -/
theorem no_spec_validation_witness :
    ((processRecord false true 1 (fun _ => false) (fun _ => .image 7)
      ("tiles/broken.png", malformedSpec)).2).head? =
      some (.netCall (buildPrompt malformedSpec)) :=
  (no_spec_validation false true 1 (fun _ => false) (fun _ => .image 7)
    ("tiles/broken.png", malformedSpec) rfl).1

/-! ### Lemmas about the generation run -/

lemma runRecords_ex_skipped (noPost : Bool) (delay : ℚ) (ex : String → Bool)
    (svc : Nat → Nat → Resp) :
    ∀ recs i, ∀ pr ∈ (runRecords false noPost delay ex svc i recs).1,
      ex pr.1 = true → pr.2 = .skipped := by
  intro recs
  induction recs with
  | nil => intro i pr h; simp [runRecords] at h
  | cons rec rest ih =>
    intro i pr hpr hex
    simp only [runRecords] at hpr
    rcases List.mem_cons.mp hpr with hpr | hpr
    · subst hpr
      simp only at hex ⊢
      rw [processRecord_skip noPost delay ex (svc i) rec hex]
    · exact ih (i + 1) pr hpr hex

lemma runRecords_generated_materialized (force noPost : Bool) (delay : ℚ)
    (ex : String → Bool) (svc : Nat → Nat → Resp) :
    ∀ recs i, ∀ pr ∈ (runRecords force noPost delay ex svc i recs).1,
      pr.2 = .generated →
      pr.1 ∈ writesOf (runRecords force noPost delay ex svc i recs).2 := by
  intro recs
  induction recs with
  | nil => intro i pr h; simp [runRecords] at h
  | cons rec rest ih =>
    intro i pr hpr hgen
    simp only [runRecords] at hpr ⊢
    simp only [writesOf, List.filterMap_append]
    rcases List.mem_cons.mp hpr with hpr | hpr
    · subst hpr
      simp only at hgen ⊢
      have hw := processRecord_generated_write force noPost delay ex (svc i) rec hgen
      simp only [writesOf] at hw
      exact List.mem_append_left _ hw
    · have hw := ih (i + 1) pr hpr hgen
      simp only [writesOf] at hw
      exact List.mem_append_right _ hw

/-! ### Claim C1: idempotent skip -/

/-- Claim C1: with force off, every record whose output path already
exists is recorded Skipped with an empty effect trace (no network call,
no write, no sleep); every record Generated by a run is materialized
afterwards (its path was written); and in a second run over the
post-run state every previously materialized record is Skipped, so the
second run produces zero Generated outcomes among materialized records. -/
theorem idempotent_skip (cats : Catalog) (noPost : Bool) (delay : ℚ)
    (ex : String → Bool) (svc svc' : Nat → Nat → Resp) :
    (∀ rec ∈ catalogRecords cats, ex rec.1 = true →
      ∀ s1 : Nat → Resp, processRecord false noPost delay ex s1 rec = (.skipped, [])) ∧
    (∀ pr ∈ (genRun cats false noPost delay ex svc).1, pr.2 = .generated →
      existsAfter ex (genRun cats false noPost delay ex svc).2 pr.1 = true) ∧
    (∀ pr ∈ (genRun cats false noPost delay
        (existsAfter ex (genRun cats false noPost delay ex svc).2) svc').1,
      existsAfter ex (genRun cats false noPost delay ex svc).2 pr.1 = true →
      pr.2 = .skipped) ∧
    ((genRun cats false noPost delay
        (existsAfter ex (genRun cats false noPost delay ex svc).2) svc').1.filter
      (fun pr => existsAfter ex (genRun cats false noPost delay ex svc).2 pr.1 &&
        pr.2 == .generated)).length = 0 := by
  refine ⟨?_, ?_, ?_, ?_⟩
  · intro rec _ hex s1
    exact processRecord_skip noPost delay ex s1 rec hex
  · intro pr hpr hgen
    have hw := runRecords_generated_materialized false noPost delay ex svc
      (catalogRecords cats) 0 pr hpr hgen
    simp only [existsAfter, Bool.or_eq_true]
    right
    exact List.elem_eq_true_of_mem hw
  · intro pr hpr hex2
    exact runRecords_ex_skipped noPost delay
      (existsAfter ex (genRun cats false noPost delay ex svc).2) svc'
      (catalogRecords cats) 0 pr hpr hex2
  · rw [List.length_eq_zero, List.filter_eq_nil_iff]
    intro pr hpr hcontra
    simp only [Bool.and_eq_true, beq_iff_eq] at hcontra
    obtain ⟨hx, hgen⟩ := hcontra
    have hsk := runRecords_ex_skipped noPost delay
      (existsAfter ex (genRun cats false noPost delay ex svc).2) svc'
      (catalogRecords cats) 0 pr hpr hx
    rw [hsk] at hgen
    exact Outcome.noConfusion hgen

set_option maxRecDepth 8000 in
/-- Witness for C1: the one-record demo catalog with its output already
present is Skipped with an empty trace. -/
theorem idempotent_skip_witness :
    processRecord false false 1 (fun _ => true) (fun _ => .raised)
      ("tiles/grass_plains.png", demoSpec) = (.skipped, []) :=
  (idempotent_skip demoCatalog false 1 (fun _ => true) (fun _ _ => .raised)
    (fun _ _ => .raised)).1 ("tiles/grass_plains.png", demoSpec) (by decide) rfl
    (fun _ => .raised)

/-! ### Claim C8: exit status contract -/

/-- Claim C8: the process exits 1 with no effects when the requested
category is unknown, and exits 1 with no effects when generation mode is
reached without a credential; in every other mode combination (list,
export-specs, dry-run, or generation with a credential) the exit status
is 0 — in particular generation runs exit 0 regardless of how many
records end Failed, for every service behaviour svc. -/
theorem exit_status_contract (cats : Catalog) (args : Args) (apiKey : Bool)
    (ex : String → Bool) (svc : Nat → Nat → Resp) :
    (∀ c, args.category = some c → cats.any (fun k => k.1 == c) = false →
      mainRun cats args apiKey ex svc = (1, [], [])) ∧
    ((∀ c, args.category = some c → cats.any (fun k => k.1 == c) = true) →
      args.list = false → args.export_specs = none → args.dry_run = false →
      apiKey = false → mainRun cats args apiKey ex svc = (1, [], [])) ∧
    ((∀ c, args.category = some c → cats.any (fun k => k.1 == c) = true) →
      (args.list = true ∨ args.export_specs ≠ none ∨ args.dry_run = true ∨
        apiKey = true) →
      (mainRun cats args apiKey ex svc).1 = 0) := by
  refine ⟨?_, ?_, ?_⟩
  · intro c hc hfalse
    simp [mainRun, hc, hfalse]
  · intro hcat hlist hexp hdry hkey
    cases harg : args.category with
    | none => simp [mainRun, harg, hlist, hexp, hdry, hkey]
    | some c =>
      have hc := hcat c harg
      simp [mainRun, harg, hc, hlist, hexp, hdry, hkey]
  · intro hcat hor
    cases harg : args.category with
    | none =>
      cases hlist : args.list
      · rcases hexp : args.export_specs with _ | dir
        · cases hdry : args.dry_run
          · cases hkey : apiKey
            · exfalso
              rcases hor with h | h | h | h <;> simp_all
            · simp [mainRun, harg, hlist, hexp, hdry, hkey]
          · simp [mainRun, harg, hlist, hexp, hdry]
        · simp [mainRun, harg, hlist, hexp]
      · simp [mainRun, harg, hlist]
    | some c =>
      have hc := hcat c harg
      cases hlist : args.list
      · rcases hexp : args.export_specs with _ | dir
        · cases hdry : args.dry_run
          · cases hkey : apiKey
            · exfalso
              rcases hor with h | h | h | h <;> simp_all
            · simp [mainRun, harg, hc, hlist, hexp, hdry, hkey]
          · simp [mainRun, harg, hc, hlist, hexp, hdry]
        · simp [mainRun, harg, hc, hlist, hexp]
      · simp [mainRun, harg, hc, hlist]

/-- Witness for C8: requesting the unknown category foo exits 1 with no
outcomes and no effects. -/
theorem exit_status_witness :
    mainRun demoCatalog argsFoo true (fun _ => false) (fun _ _ => .raised)
      = (1, [], []) :=
  (exit_status_contract demoCatalog argsFoo true (fun _ => false)
    (fun _ _ => .raised)).1 "foo" rfl (by decide)

end Botworld
